import Mathlib

/-!
Shallow embedding of the interaction-state logic of `src/main.ts` (class `App`).

The graphics library (scene graph, camera projection, renderer, raycaster,
OrbitControls) is external: the raycast result of a click is passed in as an
`Option Vec3` (the first intersection point, if any), and per-frame elapsed
time is passed in as a parameter (the source computes it from `Date.now()`).
Uniform values that are set once at construction and never read or written by
the logic afterwards (light direction, colors, `cameraPosition`, resolution)
are omitted; all fields the handlers touch are modelled.  All numbers are ℚ.
-/

/-- A 3D point, as used for click positions (`THREE.Vector3`). -/
structure Vec3 where
  x : ℚ
  y : ℚ
  z : ℚ
deriving DecidableEq, Repr

/-- Mutable uniforms of the wave material (`waveMaterial`, main.ts lines 54-74). -/
structure WaveUniforms where
  u_time : ℚ
  u_elasticity : ℚ
  u_clickTime : ℚ
  u_clickPosition : Vec3
  u_shininess : ℚ
  u_transparency : ℚ
  u_jiggleIntensity : ℚ
deriving DecidableEq, Repr

/-- Mutable uniforms of the creative material (`creativeMaterial`, main.ts lines 77-92). -/
structure CreativeUniforms where
  u_time : ℚ
  u_inflateAmount : ℚ
deriving DecidableEq, Repr

/-- The `materials` list has exactly two elements: `[waveMaterial, creativeMaterial]`
(main.ts line 95); only its length is needed by the logic. -/
def materialsLength : ℕ := 2

/-- The state of class `App`: its private fields together with the mutable
uniform slots of the two materials and of the external objects it writes
(renderer size, camera aspect, which material the mesh holds). -/
structure App where
  activeMaterialIndex : ℕ
  clickTime : ℚ
  clickPosition : Vec3
  elasticity : ℚ
  wave : WaveUniforms
  creative : CreativeUniforms
  /-- Index into `materials` of the material currently assigned to `mesh.material`. -/
  meshMaterialIndex : ℕ
  aspect : ℚ
  rendererWidth : ℚ
  rendererHeight : ℚ
deriving DecidableEq, Repr

/-- The constructor (main.ts lines 30-116), given the ambient window size.
Note line 107: `new THREE.Vector3(-1.0, -1.0)` leaves `z` at its default `0`,
so the internal `clickPosition` starts at `(-1,-1,0)`, while the wave
material's `u_clickPosition` uniform starts at `(-1,-1,-1)` (line 63). -/
def App.init (w h : ℚ) : App :=
  { activeMaterialIndex := 0
    clickTime := -1
    clickPosition := ⟨-1, -1, 0⟩
    elasticity := 0
    wave :=
      { u_time := 0
        u_elasticity := 0
        u_clickTime := -1
        u_clickPosition := ⟨-1, -1, -1⟩
        u_shininess := 32
        u_transparency := 0.6
        u_jiggleIntensity := 0.05 }
    creative := { u_time := 0, u_inflateAmount := 0.2 }
    meshMaterialIndex := 0
    aspect := w / h
    rendererWidth := w
    rendererHeight := h }

/-- The elasticity damping step of `animate` (main.ts lines 130-134):
`if (this.elasticity > 0.001) { this.elasticity -= 0.02 * this.elasticity; }
else { this.elasticity = 0.0; }`. -/
def tickElasticity (e : ℚ) : ℚ :=
  if e > 0.001 then e - 0.02 * e else 0

/-- One frame of `animate` (main.ts lines 118-138) at a given elapsed time:
writes `u_time` into both materials, applies the elasticity damping, and
writes the new elasticity into the wave material's `u_elasticity` uniform
(line 135).  Rendering itself is external. -/
def App.animate (elapsedTime : ℚ) (s : App) : App :=
  let wave1 := { s.wave with u_time := elapsedTime }
  let creative1 := { s.creative with u_time := elapsedTime }
  let e := tickElasticity s.elasticity
  { s with
    wave := { wave1 with u_elasticity := e }
    creative := creative1
    elasticity := e }

/-- Handler `onWindowResize` (main.ts lines 140-146). -/
def App.onWindowResize (w h : ℚ) (s : App) : App :=
  { s with rendererWidth := w, rendererHeight := h, aspect := w / h }

/-- Handler `onDocumentClick` (main.ts lines 148-167).  `elapsed` is the elapsed time
at the click (line 149 computes it from `Date.now()`); `hit` is the first
intersection point returned by the external raycaster, if any.  Line 149
assigns `this.clickTime` before the intersection test, in both branches. -/
def App.onDocumentClick (elapsed : ℚ) (hit : Option Vec3) (s : App) : App :=
  let s1 := { s with clickTime := elapsed }
  match hit with
  | some intersectionPoint =>
      { s1 with
        wave := { s1.wave with
                    u_clickPosition := intersectionPoint
                    u_clickTime := s1.clickTime }
        elasticity := 1 }
  | none =>
      { s1 with wave := { s1.wave with u_clickTime := -1 } }

/-- Handler `onKeyPress` (main.ts lines 169-175). -/
def App.onKeyPress (key : String) (s : App) : App :=
  if key = "m" ∨ key = "M" then
    let i := (s.activeMaterialIndex + 1) % materialsLength
    { s with activeMaterialIndex := i, meshMaterialIndex := i }
  else s

/-- Iterated elasticity damping: the elasticity value after `n` frames. -/
def decayIter : ℕ → ℚ → ℚ
  | 0, e => e
  | n + 1, e => tickElasticity (decayIter n e)

/-- Running `n` consecutive frames of `animate`, frame `k` running at elapsed time `ts k`. -/
def animateSeq (ts : ℕ → ℚ) : ℕ → App → App
  | 0, s => s
  | n + 1, s => (animateSeq ts n s).animate (ts n)

/-- An input event dispatched to the `App` (main.ts lines 111-113 and the
animation callback of line 119). -/
inductive Event where
  | tick (t : ℚ)
  | click (t : ℚ) (hit : Option Vec3)
  | key (k : String)
  | resize (w h : ℚ)
deriving Repr

/-- Dispatch one event to its handler. -/
def App.step (s : App) : Event → App
  | Event.tick t => s.animate t
  | Event.click t hit => s.onDocumentClick t hit
  | Event.key k => s.onKeyPress k
  | Event.resize w h => s.onWindowResize w h

/-- The state reached from the initial state by a sequence of events. -/
def App.run (w h : ℚ) (evs : List Event) : App :=
  evs.foldl App.step (App.init w h)


/-! Basic facts about the damping step. -/

/-- The damping step never produces a negative value, whatever its input. -/
theorem tickElasticity_nonneg (e : ℚ) : 0 ≤ tickElasticity e := by
  unfold tickElasticity
  split
  · linarith
  · exact le_refl 0

/-- On nonnegative input the damping step does not increase the value. -/
theorem tickElasticity_le_self {e : ℚ} (he : 0 ≤ e) : tickElasticity e ≤ e := by
  unfold tickElasticity
  split <;> linarith

/-- On nonnegative input the damping step is bounded by the geometric factor 49/50. -/
theorem tickElasticity_le_decay {e : ℚ} (he : 0 ≤ e) : tickElasticity e ≤ 49 / 50 * e := by
  unfold tickElasticity
  split <;> linarith

/-- At or below the threshold the damping step snaps to exactly 0. -/
theorem tickElasticity_of_le {e : ℚ} (he : e ≤ 0.001) : tickElasticity e = 0 := by
  unfold tickElasticity
  rw [if_neg (not_lt.mpr he)]

/-- Above the threshold the damping step performs the decay assignment. -/
theorem tickElasticity_of_gt {e : ℚ} (he : 0.001 < e) : tickElasticity e = e - 0.02 * e := by
  unfold tickElasticity
  rw [if_pos he]

/-- Iterated damping stays nonnegative from a nonnegative start. -/
theorem decayIter_nonneg (n : ℕ) {e : ℚ} (he : 0 ≤ e) : 0 ≤ decayIter n e := by
  cases n with
  | zero => exact he
  | succ n => exact tickElasticity_nonneg (decayIter n e)

/-- Iterated damping from a nonnegative start is non-increasing step to step. -/
theorem decayIter_succ_le (n : ℕ) {e : ℚ} (he : 0 ≤ e) : decayIter (n + 1) e ≤ decayIter n e := by
  simp only [decayIter]
  exact tickElasticity_le_self (decayIter_nonneg n he)

/-- Iterated damping from a nonnegative start is bounded by the pure geometric decay. -/
theorem decayIter_le_pow (n : ℕ) {e : ℚ} (he : 0 ≤ e) : decayIter n e ≤ (49 / 50) ^ n * e := by
  induction n with
  | zero => simp [decayIter]
  | succ n ih =>
    simp only [decayIter]
    calc tickElasticity (decayIter n e) ≤ 49 / 50 * decayIter n e :=
          tickElasticity_le_decay (decayIter_nonneg n he)
      _ ≤ 49 / 50 * ((49 / 50) ^ n * e) := by
          exact mul_le_mul_of_nonneg_left ih (by norm_num)
      _ = (49 / 50) ^ (n + 1) * e := by ring

/-- From any starting value, iterated damping reaches exactly 0 in finitely many steps. -/
theorem decayIter_eventually_zero (e : ℚ) : ∃ n, decayIter n e = 0 := by
  rcases le_or_lt e 0.001 with he | he
  · exact ⟨1, tickElasticity_of_le he⟩
  · have he0 : 0 < e := lt_trans (by norm_num) he
    obtain ⟨n, hn⟩ := exists_pow_lt_of_lt_one (x := (0.001 : ℚ) / e) (y := 49 / 50)
      (by positivity) (by norm_num)
    refine ⟨n + 1, ?_⟩
    have h1 : decayIter n e ≤ (49 / 50) ^ n * e := decayIter_le_pow n he0.le
    have h2 : (49 / 50 : ℚ) ^ n * e < 0.001 := (lt_div_iff₀ he0).mp hn
    simp only [decayIter]
    exact tickElasticity_of_le (le_of_lt (lt_of_le_of_lt h1 h2))

/-- As long as the pure geometric decay stays above the threshold, iterated damping
from 1 agrees with the pure geometric decay. -/
theorem decayIter_one_eq_pow (n : ℕ) (h : (0.001 : ℚ) < (49 / 50) ^ n) :
    decayIter n 1 = (49 / 50) ^ n := by
  induction n with
  | zero => simp [decayIter]
  | succ n ih =>
    have hmono : ((49 : ℚ) / 50) ^ (n + 1) ≤ (49 / 50) ^ n :=
      pow_le_pow_of_le_one (by norm_num) (by norm_num) (Nat.le_succ n)
    have hn : (0.001 : ℚ) < (49 / 50) ^ n := lt_of_lt_of_le h hmono
    simp only [decayIter, ih hn]
    rw [tickElasticity_of_gt hn, show (0.02 : ℚ) = 1 / 50 from by norm_num]
    ring

/-- Starting from elasticity 1, the damping loop reaches exactly 0 after 343 frames
(343 is the first such frame count: the value decays geometrically for 342 frames,
frame 342 brings it to (49/50)^342 ≤ 0.001, and frame 343 snaps it to 0). -/
theorem decayIter_343 : decayIter 343 1 = 0 := by
  have step : ∀ (m : ℕ) (e : ℚ), decayIter (m + 1) e = tickElasticity (decayIter m e) :=
    fun _ _ => rfl
  have h341 : (0.001 : ℚ) < (49 / 50) ^ 341 := by norm_num
  have h342 : ((49 : ℚ) / 50) ^ 342 ≤ 0.001 := by norm_num
  have e342 : decayIter 342 1 = (49 / 50) ^ 342 := by
    rw [show (342 : ℕ) = 341 + 1 from rfl, step, decayIter_one_eq_pow 341 h341,
      tickElasticity_of_gt h341, show (0.02 : ℚ) = 1 / 50 from by norm_num]
    ring
  rw [show (343 : ℕ) = 342 + 1 from rfl, step, e342]
  exact tickElasticity_of_le h342

/-! Bridges between the per-frame handler and the damping iteration. -/

/-- One frame changes elasticity exactly by the damping step. -/
theorem App.animate_elasticity (t : ℚ) (s : App) :
    (s.animate t).elasticity = tickElasticity s.elasticity := rfl

/-- Elasticity after a sequence of frames depends only on the frame count. -/
theorem animateSeq_elasticity (ts : ℕ → ℚ) (n : ℕ) (s : App) :
    (animateSeq ts n s).elasticity = decayIter n s.elasticity := by
  induction n with
  | zero => rfl
  | succ n ih => simp only [animateSeq, decayIter, App.animate_elasticity, ih]

/-! Preservation of state facts by a single dispatched event. -/

/-- Every event handler keeps elasticity nonnegative and the active material
index below the length of the material list. -/
theorem App.step_inv (s : App) (ev : Event)
    (h1 : 0 ≤ s.elasticity) (h2 : s.activeMaterialIndex < materialsLength) :
    0 ≤ (s.step ev).elasticity ∧ (s.step ev).activeMaterialIndex < materialsLength := by
  cases ev with
  | tick t => exact ⟨tickElasticity_nonneg s.elasticity, h2⟩
  | click t hit =>
    cases hit with
    | some p => exact ⟨zero_le_one, h2⟩
    | none => exact ⟨h1, h2⟩
  | key k =>
    show 0 ≤ (s.onKeyPress k).elasticity ∧ (s.onKeyPress k).activeMaterialIndex < materialsLength
    unfold App.onKeyPress
    split
    · exact ⟨h1, Nat.mod_lt _ (by norm_num [materialsLength])⟩
    · exact ⟨h1, h2⟩
  | resize w h => exact ⟨h1, h2⟩

/-- No event handler writes the internal `clickPosition` field. -/
theorem App.step_clickPosition (s : App) (ev : Event) :
    (s.step ev).clickPosition = s.clickPosition := by
  cases ev with
  | tick t => rfl
  | click t hit => cases hit <;> rfl
  | key k =>
    show (s.onKeyPress k).clickPosition = s.clickPosition
    unfold App.onKeyPress
    split <;> rfl
  | resize w h => rfl

/-! Theorems for the specification claims. -/

/-- C1 (counterexample): in the spec's scenario — click hits the surface at
(1,2,3) at elapsed time 2.0 — the post-click state does satisfy
elasticity = 1, click-position uniform = (1,2,3) and click-time uniform = 2,
but after 50 subsequent frame ticks elasticity is (49/50)^50 ≈ 0.364, not 0. -/
theorem c1_fifty_ticks_counterexample :
    ((App.init 1 1).onDocumentClick 2 (some ⟨1, 2, 3⟩)).elasticity = 1 ∧
    ((App.init 1 1).onDocumentClick 2 (some ⟨1, 2, 3⟩)).wave.u_clickPosition = ⟨1, 2, 3⟩ ∧
    ((App.init 1 1).onDocumentClick 2 (some ⟨1, 2, 3⟩)).wave.u_clickTime = 2 ∧
    (animateSeq (fun _ => 0) 50 ((App.init 1 1).onDocumentClick 2 (some ⟨1, 2, 3⟩))).elasticity
      ≠ 0 := by
  refine ⟨rfl, rfl, rfl, ?_⟩
  rw [animateSeq_elasticity]
  show decayIter 50 1 ≠ 0
  rw [decayIter_one_eq_pow 50 (by norm_num)]
  positivity

/-- C1 (amended): after the click hits the surface at (1,2,3) at elapsed time
2.0, the state satisfies elasticity = 1, wave click-position uniform = (1,2,3)
and wave click-time uniform = 2; elasticity then reaches exactly 0 after 343
(not 50) subsequent frame ticks, at whatever elapsed times they run. -/
theorem c1_scenario_343_ticks (w h : ℚ) (ts : ℕ → ℚ) :
    ((App.init w h).onDocumentClick 2 (some ⟨1, 2, 3⟩)).elasticity = 1 ∧
    ((App.init w h).onDocumentClick 2 (some ⟨1, 2, 3⟩)).wave.u_clickPosition = ⟨1, 2, 3⟩ ∧
    ((App.init w h).onDocumentClick 2 (some ⟨1, 2, 3⟩)).wave.u_clickTime = 2 ∧
    (animateSeq ts 343 ((App.init w h).onDocumentClick 2 (some ⟨1, 2, 3⟩))).elasticity = 0 := by
  refine ⟨rfl, rfl, rfl, ?_⟩
  rw [animateSeq_elasticity]
  show decayIter 343 1 = 0
  exact decayIter_343

/-- C2 (counterexample): from a state whose elasticity is the negative value
-1, one frame tick snaps elasticity up to 0, so the tick sequence is not
monotonically non-increasing for every starting elasticity value. -/
theorem c2_negative_start_counterexample :
    ({ App.init 1 1 with elasticity := -1 } : App).elasticity <
      (animateSeq (fun _ => 0) 1 { App.init 1 1 with elasticity := -1 }).elasticity := by
  rw [animateSeq_elasticity]
  show (-1 : ℚ) < decayIter 1 (-1)
  rw [show decayIter 1 (-1) = tickElasticity (-1) from rfl,
    tickElasticity_of_le (by norm_num)]
  norm_num

/-- C2 (amended): from every starting state with nonnegative elasticity, the
elasticity sequence produced by repeated frame ticks with no intervening click
is monotonically non-increasing, and (from any starting state) there is a
finite number of ticks after which elasticity equals exactly 0. -/
theorem c2_monotone_and_reaches_zero (s : App) (ts : ℕ → ℚ) :
    (0 ≤ s.elasticity →
      ∀ n, (animateSeq ts (n + 1) s).elasticity ≤ (animateSeq ts n s).elasticity) ∧
    ∃ n, (animateSeq ts n s).elasticity = 0 := by
  constructor
  · intro h n
    rw [animateSeq_elasticity, animateSeq_elasticity]
    exact decayIter_succ_le n h
  · obtain ⟨n, hn⟩ := decayIter_eventually_zero s.elasticity
    exact ⟨n, by rw [animateSeq_elasticity]; exact hn⟩

/-- C2 witness: the amended theorem applied at the initial state, whose
elasticity 0 discharges the nonnegativity hypothesis of the first conjunct. -/
theorem c2_monotone_and_reaches_zero_witness :
    (∀ n, (animateSeq (fun _ => 0) (n + 1) (App.init 1 1)).elasticity ≤
        (animateSeq (fun _ => 0) n (App.init 1 1)).elasticity) ∧
    ∃ n, (animateSeq (fun _ => 0) n (App.init 1 1)).elasticity = 0 :=
  ⟨(c2_monotone_and_reaches_zero (App.init 1 1) (fun _ => 0)).1 (le_refl 0),
   (c2_monotone_and_reaches_zero (App.init 1 1) (fun _ => 0)).2⟩

/-- C3: each frame tick applies exactly the decay rule of main.ts lines
130-134: above 0.001 it subtracts 0.02 times the value, otherwise it sets 0. -/
theorem c3_decay_rule (s : App) (t : ℚ) :
    (s.animate t).elasticity =
      if s.elasticity > 0.001 then s.elasticity - 0.02 * s.elasticity else 0 := rfl

/-- C4: a click whose ray hits nothing sets the wave click-time uniform to -1
and leaves both the elasticity and the wave click-position uniform unchanged. -/
theorem c4_miss_click (s : App) (t : ℚ) :
    (s.onDocumentClick t none).wave.u_clickTime = -1 ∧
    (s.onDocumentClick t none).elasticity = s.elasticity ∧
    (s.onDocumentClick t none).wave.u_clickPosition = s.wave.u_clickPosition :=
  ⟨rfl, rfl, rfl⟩

/-- C5: a click whose ray hits a surface sets elasticity to exactly 1, the wave
click-time uniform to the elapsed time of the click, and the wave
click-position uniform to the intersection point. -/
theorem c5_hit_click (s : App) (t : ℚ) (p : Vec3) :
    (s.onDocumentClick t (some p)).elasticity = 1 ∧
    (s.onDocumentClick t (some p)).wave.u_clickTime = t ∧
    (s.onDocumentClick t (some p)).wave.u_clickPosition = p :=
  ⟨rfl, rfl, rfl⟩

/-- C6: after a frame tick at elapsed time t ≥ 0, the time uniform of the wave
material and of the creative material both equal t. -/
theorem c6_time_uniform (s : App) (t : ℚ) (h : 0 ≤ t) :
    (s.animate t).wave.u_time = t ∧ (s.animate t).creative.u_time = t :=
  ⟨rfl, rfl⟩

/-- C6 witness: the theorem applied at the initial state with t = 1. -/
theorem c6_time_uniform_witness :
    (0 : ℚ) ≤ 1 ∧
    ((App.init 1 1).animate 1).wave.u_time = 1 ∧
    ((App.init 1 1).animate 1).creative.u_time = 1 :=
  ⟨by norm_num, c6_time_uniform (App.init 1 1) 1 (by norm_num)⟩

/-- C7: a key press of "m" or "M" advances the active material index modulo 2
and assigns the matching material to the mesh; any other key leaves the whole
state unchanged. -/
theorem c7_key_toggle (s : App) (k : String) :
    ((k = "m" ∨ k = "M") →
      (s.onKeyPress k).activeMaterialIndex = (s.activeMaterialIndex + 1) % 2 ∧
      (s.onKeyPress k).meshMaterialIndex = (s.onKeyPress k).activeMaterialIndex) ∧
    (¬(k = "m" ∨ k = "M") → s.onKeyPress k = s) := by
  constructor
  · intro hk
    unfold App.onKeyPress
    rw [if_pos hk]
    exact ⟨rfl, rfl⟩
  · intro hk
    unfold App.onKeyPress
    rw [if_neg hk]

/-- C7 witness: the theorem applied to the initial state at the keys "m" and "x". -/
theorem c7_key_toggle_witness :
    ((App.init 1 1).onKeyPress "m").activeMaterialIndex =
      ((App.init 1 1).activeMaterialIndex + 1) % 2 ∧
    (App.init 1 1).onKeyPress "x" = App.init 1 1 :=
  ⟨((c7_key_toggle (App.init 1 1) "m").1 (Or.inl rfl)).1,
   (c7_key_toggle (App.init 1 1) "x").2 (by decide)⟩

/-- C8: in every state reachable from the initial state by any sequence of
frame ticks, clicks, key presses and resizes, elasticity is nonnegative and
the active material index is a valid index into the 2-element material list. -/
theorem c8_reachable_invariants (w h : ℚ) (evs : List Event) :
    0 ≤ (App.run w h evs).elasticity ∧
    (App.run w h evs).activeMaterialIndex < materialsLength := by
  unfold App.run
  suffices H : ∀ s : App, 0 ≤ s.elasticity → s.activeMaterialIndex < materialsLength →
      0 ≤ (evs.foldl App.step s).elasticity ∧
      (evs.foldl App.step s).activeMaterialIndex < materialsLength by
    exact H (App.init w h) (le_refl 0) (by norm_num [App.init, materialsLength])
  induction evs with
  | nil => exact fun s h1 h2 => ⟨h1, h2⟩
  | cons ev evs ih =>
    intro s h1 h2
    obtain ⟨h1', h2'⟩ := App.step_inv s ev h1 h2
    exact ih (s.step ev) h1' h2'

/-- C9: every click, hit or miss, overwrites the internal `clickTime` field
with the elapsed time of the click. -/
theorem c9_clickTime_always_written (s : App) (t : ℚ) (hit : Option Vec3) :
    (s.onDocumentClick t hit).clickTime = t := by
  cases hit <;> rfl

/-- C10: the internal `clickPosition` field is never mutated after
construction: in every state reachable by any sequence of events it still
holds its initial value (-1,-1,0) (main.ts line 107; a hit click writes only
the wave material's click-position uniform). -/
theorem c10_clickPosition_constant (w h : ℚ) (evs : List Event) :
    (App.run w h evs).clickPosition = ⟨-1, -1, 0⟩ := by
  unfold App.run
  suffices H : ∀ s : App, (evs.foldl App.step s).clickPosition = s.clickPosition by
    rw [H]
    rfl
  induction evs with
  | nil => exact fun s => rfl
  | cons ev evs ih =>
    intro s
    rw [List.foldl_cons, ih (s.step ev), App.step_clickPosition]
